import Mathlib

/-!
Verification of the pyroSAR ancillary/raster utilities against their
natural-language specification.

The development shallowly embeds the relevant Python functions of
`pyroSAR/ancillary.py` and `pyroSAR/spatial/raster.py`:

* `groupbyTime` (ancillary.py, lines 109-132): grouping of images by
  acquisition-time proximity;
* `multicore` (ancillary.py, lines 135-202): the worker-pool wrapper;
* the `Raster` handle (raster.py): read-only open, in-memory mutation
  (`assign`, `rescale`, `reduce`) and `write`;
* `Raster.extract` (raster.py, lines 139-206): distance-weighted pixel
  extraction around a point;
* `stack` (raster.py, lines 416-545): the mosaicking/stacking pipeline,
  modelled as a pure function that returns the outcome, the trace of
  file-system/GDAL effects, the final contents of the caller-supplied
  `srcfiles` list (Python lists are passed by reference and `stack`
  mutates its argument in place), and the resulting file-system state.

Python floats are modelled as rationals for pixel data and as reals where
`math.sqrt` is involved; Python lists are Lean lists.  The external GDAL
and OGR collaborators are modelled as oracles: per-file projection strings,
a per-file bounding-box-intersection predicate for the shapefile, and
events recording every call that touches the file system.
-/

/- ## Python errors

Each constructor corresponds to one concrete `raise` site (the doc strings
below quote the exact Python message where one exists). -/

inductive PyError : Type where
  /-- IOError, message "mismatch between number of source file groups and layernames" -/
  | layernamesMismatch : PyError
  /-- IOError, message "only one file specified; nothing to be done" -/
  | singleFile : PyError
  /-- IOError, message "resampling method not supported" -/
  | resamplingUnsupported : PyError
  /-- IOError, message "raster projection mismatch" -/
  | projectionMismatch : PyError
  /-- IOError, message "file does not exist" (Raster.__init__) -/
  | fileNotFound : PyError
  /-- ValueError, message "only single band images supported" -/
  | singleBandOnly : PyError
  /-- ValueError, message "file does not contain valid pixels" -/
  | noValidPixels : PyError
  /-- ValueError raised by the Python runtime when unpacking an empty
  sequence: line 527 `srcfiles, dstfiles = map(list, zip(*files))` with
  files empty (reachable with overwrite set when every pair is gone) -/
  | valueError : PyError
  /-- TypeError raised by the Python runtime, e.g. len() of a non-sequence -/
  | typeError : PyError
  /-- IndexError raised by the Python runtime, e.g. indexing an empty list -/
  | indexError : PyError
  /-- AttributeError raised by multicore for incompatible arguments -/
  | attributeError : PyError
deriving DecidableEq

/- ## ancillary.groupbyTime (lines 109-132)

```
srcfiles = sorted(images, key=function)
groups = []
temp = []
for item in srcfiles:
    if len(temp) == 0:
        temp.append(item)
    else:
        if 0 < abs(function(item)-function(temp[-1])) < time:
            temp.append(item)
        else:
            groups.append(temp) if len(temp) > 1 else groups.append(temp[0])
            temp = [item]
return groups
```

A returned group is either a bare item (singleton groups are appended as
`temp[0]`) or a list; this polymorphic shape is modelled by a sum type.
Python `sorted` is a stable ascending sort by key, modelled by
`List.insertionSort` (which is stable). -/

/-- The condition `0 < abs(function(item)-function(temp[-1])) < time` of
line 127, with `a` the last element of the current group and `b` the
scanned item. -/
def gapOK (f : α → Int) (time : Int) (a b : α) : Bool :=
  decide (0 < |f b - f a|) && decide (|f b - f a| < time)

/-- Line 130: `groups.append(temp) if len(temp) > 1 else groups.append(temp[0])`. -/
def flattenGroup (temp : List α) : α ⊕ List α :=
  match temp with
  | [x] => Sum.inl x
  | l => Sum.inr l

/-- The scanning loop of `groupbyTime` (lines 123-131).  Note that when the
input is exhausted the pending group `temp` is discarded, exactly as in the
source, where no append of the final `temp` follows the loop. -/
def groupbyTimeGo (f : α → Int) (time : Int) :
    List α → List (α ⊕ List α) → List α → List (α ⊕ List α)
  | [], groups, _temp => groups
  | item :: rest, groups, [] => groupbyTimeGo f time rest groups [item]
  | item :: rest, groups, t :: ts =>
      if gapOK f time ((t :: ts).getLast (List.cons_ne_nil t ts)) item then
        groupbyTimeGo f time rest groups (t :: (ts ++ [item]))
      else
        groupbyTimeGo f time rest (groups ++ [flattenGroup (t :: ts)]) [item]

/-- `groupbyTime(images, function, time)` from ancillary.py. -/
def groupbyTime (images : List α) (f : α → Int) (time : Int) : List (α ⊕ List α) :=
  groupbyTimeGo f time (List.insertionSort (fun a b => f a ≤ f b) images) [] []

/-- Consecutive-gap invariant for a group: every adjacent pair satisfies
the strict condition of line 127. -/
def gapChain (f : α → Int) (time : Int) : List α → Bool
  | [] => true
  | [_] => true
  | a :: b :: rest => gapOK f time a b && gapChain f time (b :: rest)

theorem gapChain_append_last (f : α → Int) (time : Int) :
    ∀ (ts : List α) (t x : α),
      gapChain f time (t :: ts) = true →
      gapOK f time ((t :: ts).getLast (List.cons_ne_nil t ts)) x = true →
      gapChain f time (t :: (ts ++ [x])) = true := by
  intro ts
  induction ts with
  | nil =>
      intro t x _ hg
      simp only [List.getLast] at hg
      simp [gapChain, hg]
  | cons b bs ih =>
      intro t x hch hg
      simp only [gapChain, Bool.and_eq_true] at hch
      have hlast : (t :: b :: bs).getLast (List.cons_ne_nil t (b :: bs)) =
          (b :: bs).getLast (List.cons_ne_nil b bs) := by
        simp [List.getLast]
      rw [hlast] at hg
      have := ih b x hch.2 hg
      simp only [List.cons_append, gapChain, Bool.and_eq_true]
      exact ⟨hch.1, this⟩

theorem flattenGroup_inr (l g : List α) (h : flattenGroup l = Sum.inr g) : g = l := by
  unfold flattenGroup at h
  match l, h with
  | [], h => cases h; rfl
  | [x], h => cases h
  | a :: b :: rest, h => cases h; rfl

theorem groupbyTimeGo_chain (f : α → Int) (time : Int) :
    ∀ (src : List α) (groups : List (α ⊕ List α)) (temp : List α),
      (∀ g, Sum.inr g ∈ groups → gapChain f time g = true) →
      gapChain f time temp = true →
      ∀ g, Sum.inr g ∈ groupbyTimeGo f time src groups temp →
        gapChain f time g = true := by
  intro src
  induction src with
  | nil =>
      intro groups temp hg _ g hmem
      exact hg g hmem
  | cons item rest ih =>
      intro groups temp hg ht g hmem
      match temp with
      | [] =>
          rw [groupbyTimeGo] at hmem
          exact ih groups [item] hg (by simp [gapChain]) g hmem
      | t :: ts =>
          rw [groupbyTimeGo] at hmem
          split at hmem
          case isTrue hcond =>
              exact ih groups (t :: (ts ++ [item])) hg
                (gapChain_append_last f time ts t item ht hcond) g hmem
          case isFalse =>
              refine ih (groups ++ [flattenGroup (t :: ts)]) [item] ?_ (by simp [gapChain]) g hmem
              intro g' hmem'
              rcases List.mem_append.mp hmem' with h | h
              · exact hg g' h
              · have hflat : Sum.inr g' = flattenGroup (t :: ts) := by
                  simpa using h
                rw [flattenGroup_inr (t :: ts) g' hflat.symm]
                exact ht

/-- C1: groupbyTime does NOT partition its input: the scanning loop never
flushes the final pending group, so the images of the last group are
always dropped.  At input `[0, 1]` with identity key and threshold 5 both
images belong to one group, yet the function returns the empty list; a
singleton input list is likewise swallowed. -/
theorem C1_groupbyTime_drops_final_group :
    groupbyTime [(0 : Int), 1] (fun x => x) 5 = [] ∧
    groupbyTime [(7 : Int)] (fun x => x) 100 = [] := by
  constructor <;> decide

theorem c6_eval :
    groupbyTime [(0 : Int), 0, 5] (fun x => x) 3 = [Sum.inl 0, Sum.inl 0] := by
  decide

/-- C6: counterexample.  The claim asserts that two adjacent items with
equal keys (gap exactly 0) are placed in the same group.  For input
`[0, 0, 5]` with identity key and threshold 3 the two equal-key items end
up in two distinct singleton groups (the guard of line 127 requires a
strictly positive gap), so no returned group has more than one member. -/
theorem C6_counterexample :
    groupbyTime [(0 : Int), 0, 5] (fun x => x) 3 = [Sum.inl 0, Sum.inl 0] ∧
    ∀ g : List Int, Sum.inr g ∉ groupbyTime [(0 : Int), 0, 5] (fun x => x) 3 := by
  refine ⟨c6_eval, ?_⟩
  intro g h
  rw [c6_eval] at h
  simp at h

/-- C6 (amended): the scanning loop appends an item to the current group
precisely when the absolute difference to the key of the previous item is
strictly positive and strictly below the threshold (`0 < gap < time`);
consequently adjacent equal keys start a new group, a gap exactly equal to
the threshold starts a new group, and every multi-member returned group
satisfies the strict condition on all consecutive pairs. -/
theorem C6_strict_gap_semantics {α : Type} (images : List α) (f : α → Int) (time : Int)
    (g : List α) (hg : (Sum.inr g : α ⊕ List α) ∈ groupbyTime images f time) :
    gapChain f time g = true := by
  unfold groupbyTime at hg
  exact groupbyTimeGo_chain f time _ [] [] (by simp) (by simp [gapChain]) g hg

theorem c6_eval2 :
    groupbyTime [(0 : Int), 1, 99] (fun x => x) 5 = [Sum.inr [0, 1]] := by
  decide

theorem c6_mem :
    (Sum.inr [0, 1] : Int ⊕ List Int) ∈ groupbyTime [(0 : Int), 1, 99] (fun x => x) 5 := by
  rw [c6_eval2]
  exact List.mem_cons_self _ _

/-- C6 (witness): a concrete multi-member group produced by groupbyTime,
whose consecutive gaps indeed satisfy the strict bound. -/
theorem C6_strict_gap_semantics_witness :
    ((Sum.inr [0, 1] : Int ⊕ List Int) ∈ groupbyTime [(0 : Int), 1, 99] (fun x => x) 5) ∧
    gapChain (fun x : Int => x) 5 [0, 1] = true :=
  ⟨c6_mem, C6_strict_gap_semantics [(0 : Int), 1, 99] (fun x => x) 5 [0, 1] c6_mem⟩

/- ## ancillary.multicore (lines 135-202)

The worker pool (`pathos.multiprocessing`) is modelled by a `worker`
function applied to each per-process argument dictionary; argument
dictionaries are association lists from argument names to values.  The
code inspects the signature of the target function
(`inspect.getargspec`), modelled by `FuncSpec`.  The crucial point of the
translation is lines 197-202 of the source: `return result` and the
subsequent evaluation of the per-process return values are commented out,
so every non-raising path falls off the end of the function and returns
None (modelled as `.ok none`). -/

/-- Result of `inspect.getargspec(function)`: positional argument names,
whether the function takes varargs, whether it takes a keywords dict. -/
structure FuncSpec where
  args : List String
  varargs : Bool
  keywords : Bool

/-- `multicore(function, cores, multiargs, **singleargs)`.  `V` is the type
of argument values and `R` the type of per-process results.
`pathosAvailable` models whether the optional pathos import at the top of
ancillary.py succeeded (if not, multicore logs an error and returns None).
The association list `multiargs` maps argument names to the per-process
value lists; `singleargs` maps names to invariant values. -/
def multicore [Inhabited V] (pathosAvailable : Bool) (fspec : FuncSpec)
    (worker : List (String × V) → Option R) (cores : Nat)
    (multiargs : List (String × List V)) (singleargs : List (String × V)) :
    Except PyError (Option (List (Option R))) :=
  if ¬ pathosAvailable then .ok none
  else if (!fspec.varargs && !fspec.keywords) &&
      !((multiargs.map (fun p => p.1)).filter (fun s => !(fspec.args.contains s))).isEmpty then
    .error .attributeError
  else if (!fspec.varargs && !fspec.keywords) &&
      !((singleargs.map (fun p => p.1)).filter (fun s => !(fspec.args.contains s))).isEmpty then
    .error .attributeError
  else if ((multiargs.map (fun p => p.2.length)).dedup).length > 1 then
    .error .attributeError
  else
    match (multiargs.map (fun p => p.2.length)).dedup with
    | [] => .error .indexError
    | n :: _ =>
        let _cores := if n ≥ cores then cores else n
        let processlist := (List.range n).map
          (fun i => (multiargs.map (fun p => (p.1, p.2.getD i default))) ++ singleargs)
        let _results := processlist.map worker
        .ok none

/-- C10: multicore either raises or returns None; the per-process results
gathered by the pool are never returned to the caller (the result
returning code of the source is commented out), so no caller can observe
individual worker return values through multicore. -/
theorem C10_multicore_returns_none [Inhabited V] (pathosAvailable : Bool) (fspec : FuncSpec)
    (worker : List (String × V) → Option R) (cores : Nat)
    (multiargs : List (String × List V)) (singleargs : List (String × V)) :
    multicore pathosAvailable fspec worker cores multiargs singleargs = .ok none ∨
    ∃ e, multicore pathosAvailable fspec worker cores multiargs singleargs = .error e := by
  unfold multicore
  split
  · exact Or.inl rfl
  · split
    · exact Or.inr ⟨_, rfl⟩
    · split
      · exact Or.inr ⟨_, rfl⟩
      · split
        · exact Or.inr ⟨_, rfl⟩
        · split
          · exact Or.inr ⟨_, rfl⟩
          · exact Or.inl rfl

/- ## The Raster handle (raster.py, class Raster)

The file system is an association list from paths to on-disk dataset
contents; `lookupFile` returns the first binding.  A handle opened by
`Raster.__init__` (lines 41-75) records the source path, the fact that the
GDAL dataset was opened with `GA_ReadOnly`, a view `src` of the dataset it
reads from, the metadata copied out of the file, and the in-memory cache
`self.__data` (empty on open).  `assign` keeps the geotransform of the
in-memory dataset object synchronised with `self.geo`
(`SetGeoTransform`, line 115), so `write` reading
`self.raster.GetGeoTransform()` (line 366) observes `self.geo`. -/

structure Geo where
  xmin : ℚ
  xres : ℚ
  rotation_x : ℚ
  ymax : ℚ
  rotation_y : ℚ
  yres : ℚ
deriving DecidableEq

/-- On-disk raster dataset contents, as far as the modelled operations
observe them.  `data` is band-major: bands × rows × cols. -/
structure RasterFile where
  cols : Nat
  rows : Nat
  bands : Nat
  geo : Geo
  projection : String
  nodata : ℚ
  dtype : String
  data : List (List (List ℚ))
deriving DecidableEq

def FileMap : Type := List (String × RasterFile)

def lookupFile (fs : FileMap) (name : String) : Option RasterFile :=
  (fs.find? (fun p => p.1 == name)).map (fun p => p.2)

structure Raster where
  filename : String
  /-- the dataset is opened with gdal.Open(filename, GA_ReadOnly), line 45 -/
  readOnlyHandle : Bool
  /-- the dataset contents the open handle reads from -/
  src : RasterFile
  cols : Nat
  rows : Nat
  bands : Nat
  geo : Geo
  projection : String
  nodata : ℚ
  dtype : String
  /-- the in-memory cache self.__data -/
  data : List (List (List ℚ))
deriving DecidableEq

/-- `Raster.__init__` (lines 41-75): raises IOError when the file does not
exist, otherwise opens it read-only and copies the metadata; the cache
starts empty. -/
def rasterInit (fs : FileMap) (filename : String) : Except PyError Raster :=
  match lookupFile fs filename with
  | none => .error .fileNotFound
  | some rf =>
      .ok ⟨filename, true, rf, rf.cols, rf.rows, rf.bands, rf.geo, rf.projection,
           rf.nodata, rf.dtype, []⟩

/-- `band.ReadAsArray(xoff, yoff, xsize, ysize)` on a band matrix. -/
def readWindow (m : List (List ℚ)) (xoff yoff xsize ysize : Nat) : List (List ℚ) :=
  ((m.drop yoff).take ysize).map (fun row => (row.drop xoff).take xsize)

/-- `Raster.matrix(band)` for the full extent, as called by rescale and
reduce (lines 231-246): the cache if it holds enough bands, otherwise a
read from the source dataset. -/
def Raster.matrix (r : Raster) (band : Nat) : List (List ℚ) :=
  if band ≤ r.data.length then r.data.getD (band - 1) []
  else readWindow (r.src.data.getD (band - 1) []) 0 0 r.cols r.rows

/-- `Raster.assign(array, dim)` (lines 93-116): replaces the cache; when a
window is given, shrinks the logical shape to the array and shifts the
geotransform origin by the window offset.  Only the handle is changed:
`SetGeoTransform` acts on the in-memory dataset object that was opened
read-only, never on the file. -/
def Raster.assign (r : Raster) (array : List (List ℚ))
    (dim : Option (Nat × Nat × Nat × Nat)) : Raster :=
  match dim with
  | none => { r with data := [array] }
  | some (left, top, _, _) =>
      { r with data := [array], bands := 1, rows := array.length,
               cols := (array.headD []).length,
               geo := { r.geo with xmin := r.geo.xmin + left * r.geo.xres,
                                   ymax := r.geo.ymax + top * r.geo.yres } }

/-- `np.rint`: round to nearest integer, ties to even. -/
def rint (q : ℚ) : Int :=
  let n := ⌊q⌋
  let frac := q - n
  if frac < 1/2 then n
  else if 1/2 < frac then n + 1
  else if n % 2 = 0 then n else n + 1

/-- `Raster.rescale(function)` (lines 314-337): single-band only; applies
the caller function to the loaded matrix, rounds, and assigns the result
to the in-memory cache. -/
def Raster.rescale (r : Raster) (function : List (List ℚ) → List (List ℚ)) :
    Except PyError Raster :=
  if r.bands ≠ 1 then .error .singleBandOnly
  else
    let scaled := function (r.matrix 1)
    let rounded := scaled.map (fun row => row.map (fun q => ((rint q : Int) : ℚ)))
    .ok (r.assign rounded none)

def rowHasValid (nodata : ℚ) (row : List ℚ) : Bool :=
  row.any (fun v => v ≠ nodata)

def colHasValid (m : List (List ℚ)) (nodata : ℚ) (j : Nat) : Bool :=
  m.any (fun row => row.getD j nodata ≠ nodata)

/-- `Raster.reduce()` with outname=None (lines 274-312): single-band only;
fails when the band has no valid pixels (ComputeStatistics raises, the
None statistics are then indexed) or only one distinct valid value
(stats[0] == stats[1]); otherwise drops the all-nodata rows and columns
and assigns the trimmed matrix with the window offset of the valid span. -/
def Raster.reduce (r : Raster) : Except PyError Raster :=
  if r.bands ≠ 1 then .error .singleBandOnly
  else
    let mat := r.matrix 1
    match (mat.flatten).filter (fun v => v ≠ r.nodata) with
    | [] => .error .typeError
    | v :: vs =>
        if (v :: vs).all (fun x => x = v) then .error .noValidPixels
        else
          let ncols := (mat.headD []).length
          let mask1 := (List.range ncols).map (colHasValid mat r.nodata)
          let mask2 := mat.map (rowHasValid r.nodata)
          let left := mask1.findIdx (fun b => b)
          let colspan := mask1.length - (mask1.reverse.findIdx (fun b => b)) - left
          let top := mask2.findIdx (fun b => b)
          let rowspan := mask2.length - (mask2.reverse.findIdx (fun b => b)) - top
          let matRows := mat.filter (rowHasValid r.nodata)
          let matCropped := matRows.map (fun row =>
            ((row.enum).filter (fun p => colHasValid mat r.nodata p.1)).map (fun p => p.2))
          .ok (r.assign matCropped (some (left, top, colspan, rowspan)))

/-- The regex `\.tif[f]*$` of `Raster.write` (line 361). -/
def hasTifSuffix (s : String) : Bool :=
  let rchars := s.toList.reverse
  let ftail := rchars.takeWhile (fun c => c = 'f')
  let rest := rchars.dropWhile (fun c => c = 'f')
  decide (1 ≤ ftail.length) && decide (rest.take 3 = ['i', 't', '.'])

/-- The output path used by `Raster.write`: GTiff output gains a .tif
extension when the regex does not match (lines 361-362). -/
def writeName (outname : String) (format : String) : String :=
  if format = "GTiff" && !(hasTifSuffix outname) then outname ++ ".tif" else outname

/-- The dataset created by `Raster.write` (lines 364-388): geometry
adjusted for the window offset, per-band data taken from the cache if it
is populated and read from the source dataset otherwise. -/
def writeFile (r : Raster) (dtype : String) (dim : Option (Nat × Nat × Nat × Nat)) :
    RasterFile :=
  let dtype := if dtype = "default" then r.dtype else dtype
  let geo := match dim with
    | none => r.geo
    | some (x, y, _, _) => { r.geo with xmin := r.geo.xmin + x * r.geo.xres,
                                        ymax := r.geo.ymax + y * r.geo.yres }
  let dims := match dim with
    | none => (0, 0, r.cols, r.rows)
    | some d => d
  let bandsData := (List.range r.bands).map (fun i =>
    if r.data.isEmpty then readWindow (r.src.data.getD i []) dims.1 dims.2.1 dims.2.2.1 dims.2.2.2
    else r.data.getD i [])
  ⟨dims.2.2.1, dims.2.2.2, r.bands, geo, r.projection, r.nodata, dtype, bandsData⟩

/-- `Raster.write(outname, dtype, format, dim)` (lines 339-388):
`driver.Create(outname, ...)` makes a dataset at the (possibly extended)
output path; every other path of the file system is untouched. -/
def Raster.write (r : Raster) (outname : String) (dtype : String) (format : String)
    (dim : Option (Nat × Nat × Nat × Nat)) (fs : FileMap) : FileMap :=
  (writeName outname format, writeFile r dtype dim) :: fs

/-- C8: the handle is opened read-only; assign, rescale and reduce change
only the handle (its cache and logical geometry), keeping the source
identity and the dataset view intact; write creates a dataset at the
output path and leaves every other path of the file system — in
particular the source file, whenever the output path differs from it —
exactly as it was. -/
theorem C8_write_preserves_source :
    (∀ (fs : FileMap) (name : String) (r : Raster),
        rasterInit fs name = .ok r → r.readOnlyHandle = true ∧ r.filename = name) ∧
    (∀ (r : Raster) (array : List (List ℚ)) (dim : Option (Nat × Nat × Nat × Nat)),
        (r.assign array dim).filename = r.filename ∧ (r.assign array dim).src = r.src) ∧
    (∀ (r r₂ : Raster) (f : List (List ℚ) → List (List ℚ)),
        r.rescale f = .ok r₂ → r₂.filename = r.filename ∧ r₂.src = r.src) ∧
    (∀ (r r₂ : Raster), r.reduce = .ok r₂ → r₂.filename = r.filename ∧ r₂.src = r.src) ∧
    (∀ (r : Raster) (outname dtype format : String) (dim : Option (Nat × Nat × Nat × Nat))
        (fs : FileMap),
        (lookupFile (r.write outname dtype format dim fs) (writeName outname format)).isSome
          = true) ∧
    (∀ (r : Raster) (outname dtype format : String) (dim : Option (Nat × Nat × Nat × Nat))
        (fs : FileMap) (p : String), p ≠ writeName outname format →
        lookupFile (r.write outname dtype format dim fs) p = lookupFile fs p) := by
  refine ⟨?_, ?_, ?_, ?_, ?_, ?_⟩
  · intro fs name r h
    unfold rasterInit at h
    cases hl : lookupFile fs name <;> rw [hl] at h
    · cases h
    · cases h
      exact ⟨rfl, rfl⟩
  · intro r array dim
    unfold Raster.assign
    match dim with
    | none => exact ⟨rfl, rfl⟩
    | some (a, b, c, d) => exact ⟨rfl, rfl⟩
  · intro r r₂ f h
    unfold Raster.rescale at h
    split at h
    · cases h
    · cases h
      unfold Raster.assign
      exact ⟨rfl, rfl⟩
  · intro r r₂ h
    unfold Raster.reduce at h
    split at h
    · cases h
    · dsimp only at h
      split at h
      · cases h
      · split at h
        · cases h
        · cases h
          unfold Raster.assign
          exact ⟨rfl, rfl⟩
  · intro r outname dtype format dim fs
    unfold Raster.write lookupFile
    simp [List.find?]
  · intro r outname dtype format dim fs p hp
    unfold Raster.write lookupFile
    simp only [List.find?]
    have : (((writeName outname format, writeFile r dtype dim) : String × RasterFile).1
        == p) = false := by
      simp [Ne.symm hp]
    rw [this]

def demoFile : RasterFile :=
  ⟨2, 2, 1, ⟨0, 1, 0, 2, 0, -1⟩, "P", 0, "Float32", [[[1, 2], [3, 4]]]⟩

def demoFS : FileMap := [("a.tif", demoFile)]

def demoRaster : Raster :=
  ⟨"a.tif", true, demoFile, 2, 2, 1, ⟨0, 1, 0, 2, 0, -1⟩, "P", 0, "Float32", []⟩

/-- C8 (witness): writing the demonstration handle to the path b leaves
the lookup of the source path a.tif unchanged. -/
theorem C8_write_preserves_source_witness :
    ("a.tif" ≠ writeName "b" "ENVI") ∧
    lookupFile (Raster.write demoRaster "b" "default" "ENVI" none demoFS) "a.tif"
      = lookupFile demoFS "a.tif" :=
  ⟨by decide, C8_write_preserves_source.2.2.2.2.2 demoRaster "b" "default" "ENVI" none demoFS
    "a.tif" (by decide)⟩

/- ## Raster.extract (lines 139-206)

Pixel geometry lives in the reals because the weight of a pixel is
`math.sqrt(dx**2 + dy**2)`; pixel values and the no-data sentinel are
rationals.  The band is an oracle `pix x y` giving the value at column x,
row y (the source reads `array[y - ymin, x - xmin]` of the window read
from band 1, which is the same entry of the full band).  `int(a // b)` of
the source is floor division of floats followed by an exact conversion,
i.e. the integer floor of the quotient.  Note that line 163 subtracts
`xlim` (not `ylim`) when computing the minimum row, which the translation
reproduces. -/

structure ExtGeo where
  cols : Int
  rows : Int
  xmin : ℝ
  ymax : ℝ
  xres : ℝ
  yres : ℝ

noncomputable def extractXmin (r : ExtGeo) (px radius : ℝ) : Int :=
  max ⌊(px - r.xmin - r.xres * radius) / r.xres⌋ 0

noncomputable def extractYmin (r : ExtGeo) (py radius : ℝ) : Int :=
  max ⌊(r.ymax - py - r.xres * radius) / r.yres⌋ 0

noncomputable def extractXmax (r : ExtGeo) (px radius : ℝ) : Int :=
  min (⌊(px - r.xmin + r.xres * radius) / r.xres⌋ + 2) r.cols

noncomputable def extractYmax (r : ExtGeo) (py radius : ℝ) : Int :=
  min (⌊(r.ymax - py + r.yres * radius) / r.yres⌋ + 2) r.rows

/-- The pixel indices visited by the double loop of lines 181-182
(`for x in range(xmin, xmax)`, `for y in range(ymin, ymax)`). -/
noncomputable def extractWindow (r : ExtGeo) (px py radius : ℝ) : List (Int × Int) :=
  (List.range (extractXmax r px radius - extractXmin r px radius).toNat).flatMap (fun i =>
    (List.range (extractYmax r py radius - extractYmin r py radius).toNat).map (fun j =>
      (extractXmin r px radius + i, extractYmin r py radius + j)))

/-- The pixels passing the `val != no_data` guard of line 185. -/
noncomputable def extractValid (r : ExtGeo) (pix : Int → Int → ℚ) (px py radius : ℝ)
    (no_data : ℚ) : List (Int × Int) :=
  (extractWindow r px py radius).filter (fun p => decide (pix p.1 p.2 ≠ no_data))

/-- Lines 188-195: pixel-centre coordinates and the distance weight
`sqrt(dx**2 + dy**2)` (including the sign slip of line 189, where `hy` is
added instead of subtracted after `- y * yres`). -/
noncomputable def extractWeight (r : ExtGeo) (px py : ℝ) (p : Int × Int) : ℝ :=
  Real.sqrt (|p.1 * r.xres + r.xres / 2 + r.xmin - px| ^ 2 +
             |r.ymax - p.2 * r.yres + r.yres / 2 - py| ^ 2)

/-- The accumulator `sum` after the loop. -/
noncomputable def extractSum (r : ExtGeo) (pix : Int → Int → ℚ) (px py radius : ℝ)
    (no_data : ℚ) : ℝ :=
  ((extractValid r pix px py radius no_data).map
    (fun p => ((pix p.1 p.2 : ℚ) : ℝ) * extractWeight r px py p)).sum

/-- The accumulator `weightsum` after the loop. -/
noncomputable def extractWeightSum (r : ExtGeo) (pix : Int → Int → ℚ) (px py radius : ℝ)
    (no_data : ℚ) : ℝ :=
  ((extractValid r pix px py radius no_data).map (extractWeight r px py)).sum

/-- `Raster.extract(px, py, radius, no_data)`: the final branch of lines
200-206 (`counter` equals the length of the valid-pixel list). -/
noncomputable def extract (r : ExtGeo) (pix : Int → Int → ℚ) (px py radius : ℝ)
    (no_data : ℚ) : ℝ :=
  if 0 < extractSum r pix px py radius no_data then
    extractSum r pix px py radius no_data / extractWeightSum r pix px py radius no_data
  else if 0 < (extractValid r pix px py radius no_data).length then 0
  else (no_data : ℝ)

/-- A one-by-one raster with origin (0, 2-sic: ymax 1), unit resolution. -/
noncomputable def exGeo : ExtGeo :=
  { cols := 1, rows := 1, xmin := 0, ymax := 1, xres := 1, yres := 1 }

theorem ex_window : extractWindow exGeo (1/2) (1/2) 1 = [(0, 0)] := by
  have hxmin : extractXmin exGeo (1/2) 1 = 0 := by
    unfold extractXmin exGeo
    norm_num
  have hymin : extractYmin exGeo (1/2) 1 = 0 := by
    unfold extractYmin exGeo
    norm_num
  have hxmax : extractXmax exGeo (1/2) 1 = 1 := by
    unfold extractXmax exGeo
    norm_num
  have hymax : extractYmax exGeo (1/2) 1 = 1 := by
    unfold extractYmax exGeo
    norm_num
  unfold extractWindow
  rw [hxmin, hymin, hxmax, hymax]
  decide

theorem ex_weight : extractWeight exGeo (1/2) (1/2) (0, 0) = 1 := by
  unfold extractWeight exGeo
  have h1 : |((0 : Int) : ℝ) * 1 + 1 / 2 + 0 - 1 / 2| ^ 2 +
      |1 - ((0 : Int) : ℝ) * 1 + 1 / 2 - 1 / 2| ^ 2 = 1 := by
    push_cast
    norm_num
  simp only []
  rw [h1, Real.sqrt_one]

def pixN : Int → Int → ℚ := fun _ _ => -5

def pixP : Int → Int → ℚ := fun _ _ => 5

theorem ex_validN : extractValid exGeo pixN (1/2) (1/2) 1 0 = [(0, 0)] := by
  unfold extractValid
  rw [ex_window]
  simp [pixN]

theorem ex_validP : extractValid exGeo pixP (1/2) (1/2) 1 0 = [(0, 0)] := by
  unfold extractValid
  rw [ex_window]
  simp [pixP]

/-- C5: counterexample.  The claim asserts that a window containing
exactly one pixel that differs from the no-data value yields that pixel
value whatever the weight arithmetic, including a negative pixel value.
On a raster whose only pixel has value -5 (no-data 0), the single valid
pixel makes the weighted sum -5, which fails the `sum > 0` branch, so
extract returns 0, not the pixel value. -/
theorem C5_counterexample :
    extractValid exGeo pixN (1/2) (1/2) 1 0 = [(0, 0)] ∧
    pixN 0 0 = -5 ∧
    extract exGeo pixN (1/2) (1/2) 1 0 = 0 ∧
    extract exGeo pixN (1/2) (1/2) 1 0 ≠ ((pixN 0 0 : ℚ) : ℝ) := by
  have hsum : extractSum exGeo pixN (1/2) (1/2) 1 0 = -5 := by
    unfold extractSum
    rw [ex_validN]
    simp only [List.map_cons, List.map_nil, List.sum_cons, List.sum_nil, add_zero]
    rw [ex_weight]
    norm_num [pixN]
  have hval : extract exGeo pixN (1/2) (1/2) 1 0 = 0 := by
    unfold extract
    rw [if_neg (by rw [hsum]; norm_num), if_pos (by rw [ex_validN]; norm_num)]
  refine ⟨ex_validN, rfl, hval, ?_⟩
  rw [hval]
  norm_num [pixN]

/-- C5 (amended): extract returns the no-data override when no valid
pixel exists; 0 when valid pixels exist but the weighted sum is
non-positive; the weighted mean when the weighted sum is positive; and in
the degenerate single-valid-pixel case it returns that pixel value
exactly when the product of the pixel value with its distance weight is
positive (a negative value, or a pixel centre coinciding with the
requested point so that the weight is 0, yields 0 instead). -/
theorem C5_extract_cases :
    (∀ (r : ExtGeo) (pix : Int → Int → ℚ) (px py radius : ℝ) (no_data : ℚ),
        extractValid r pix px py radius no_data = [] →
        extract r pix px py radius no_data = (no_data : ℝ)) ∧
    (∀ (r : ExtGeo) (pix : Int → Int → ℚ) (px py radius : ℝ) (no_data : ℚ),
        extractValid r pix px py radius no_data ≠ [] →
        extractSum r pix px py radius no_data ≤ 0 →
        extract r pix px py radius no_data = 0) ∧
    (∀ (r : ExtGeo) (pix : Int → Int → ℚ) (px py radius : ℝ) (no_data : ℚ),
        0 < extractSum r pix px py radius no_data →
        extract r pix px py radius no_data =
          extractSum r pix px py radius no_data / extractWeightSum r pix px py radius no_data) ∧
    (∀ (r : ExtGeo) (pix : Int → Int → ℚ) (px py radius : ℝ) (no_data : ℚ) (p : Int × Int),
        extractValid r pix px py radius no_data = [p] →
        0 < ((pix p.1 p.2 : ℚ) : ℝ) * extractWeight r px py p →
        extract r pix px py radius no_data = ((pix p.1 p.2 : ℚ) : ℝ)) := by
  refine ⟨?_, ?_, ?_, ?_⟩
  · intro r pix px py radius no_data h
    unfold extract
    have hsum : extractSum r pix px py radius no_data = 0 := by
      unfold extractSum
      rw [h]
      simp
    rw [if_neg (by rw [hsum]; norm_num), if_neg (by rw [h]; simp)]
  · intro r pix px py radius no_data hne hsum
    unfold extract
    rw [if_neg (not_lt.mpr hsum), if_pos (List.length_pos.mpr hne)]
  · intro r pix px py radius no_data hsum
    unfold extract
    rw [if_pos hsum]
  · intro r pix px py radius no_data p hone hpos
    have hsum : extractSum r pix px py radius no_data =
        ((pix p.1 p.2 : ℚ) : ℝ) * extractWeight r px py p := by
      unfold extractSum
      rw [hone]
      simp
    have hws : extractWeightSum r pix px py radius no_data = extractWeight r px py p := by
      unfold extractWeightSum
      rw [hone]
      simp
    have hwne : extractWeight r px py p ≠ 0 := by
      intro h0
      rw [h0, mul_zero] at hpos
      exact lt_irrefl 0 hpos
    unfold extract
    rw [if_pos (by rw [hsum]; exact hpos), hsum, hws,
      mul_div_cancel_right₀ _ hwne]

/-- C5 (witness): the amended single-pixel case at a concrete raster: one
valid pixel of value 5 at distance weight 1, extract returns 5. -/
theorem C5_extract_cases_witness :
    extractValid exGeo pixP (1/2) (1/2) 1 0 = [(0, 0)] ∧
    0 < ((pixP 0 0 : ℚ) : ℝ) * extractWeight exGeo (1/2) (1/2) (0, 0) ∧
    extract exGeo pixP (1/2) (1/2) 1 0 = ((pixP 0 0 : ℚ) : ℝ) := by
  have hpos : 0 < ((pixP 0 0 : ℚ) : ℝ) * extractWeight exGeo (1/2) (1/2) (0, 0) := by
    rw [ex_weight]
    norm_num [pixP]
  exact ⟨ex_validP, hpos,
    C5_extract_cases.2.2.2 exGeo pixP (1/2) (1/2) 1 0 (0, 0) ex_validP hpos⟩

/- ## The stack pipeline (raster.py, lines 416-545)

The pipeline is modelled as a pure function from the request, a
projection oracle (what `Raster(x).projection` returns per file) and the
initial file-system state to an outcome holding: the result (unit or the
raised error), the ordered trace of calls that touch the file system or
the GDAL collaborators, the final contents of the caller-supplied
srcfiles list (Python passes the list by reference and stack both mutates
it in place and rebinds the local name at lines 476, 511 and 527 — after
a rebinding, further writes no longer reach the caller), and the final
file-system state.  Intermediate files inside the temporary directory are
tracked through the event trace; the `files` component of the
file-system state records the output files. -/

/-- Lexicographic code-point comparison of Python strings. -/
def charListLt : List Char → List Char → Bool
  | [], [] => false
  | [], _ :: _ => true
  | _ :: _, [] => false
  | a :: as, b :: bs => if a = b then charListLt as bs else decide (a < b)

/-- os.path.basename: the part after the last path separator. -/
def basename (s : String) : String :=
  String.mk ((s.toList.reverse.takeWhile (fun c => decide (c ≠ '/'))).reverse)

/-- os.path.splitext(s)[0]: the path without the extension of its final
component.  (The Python library additionally keeps a purely leading dot;
no path of interest here has one.) -/
def splitextBase (s : String) : String :=
  let rchars := s.toList.reverse
  let pre := rchars.takeWhile (fun c => decide (c ≠ '.') && decide (c ≠ '/'))
  match rchars.drop pre.length with
  | '.' :: more => String.mk more.reverse
  | _ => s

/-- One element of the srcfiles list: a bare file name, a group list to
be mosaicked in order, or Python None (None entries arise only inside the
shapefile filtering step, lines 467-475, and are dropped at line 476). -/
inductive Entry : Type where
  | file (s : String)
  | group (g : List String)
  | pynone
deriving DecidableEq

/-- targetres as passed by the caller: a scalar or a (Python) list. -/
inductive TargetRes : Type where
  | scalar (v : Int)
  | list (l : List Int)
deriving DecidableEq

/-- The vector collaborator: of the reprojected shapefile only the
predicate `intersect(shp, Raster(x).bbox())` (line 469) is observable. -/
structure Shapefile where
  inter : String → Bool

/-- Calls that touch the file system or the GDAL collaborators. -/
inductive Event : Type where
  | rasterOpen (path : String)
  | makeDirs (path : String)
  | buildvrt (dst : String)
  | warp (src dst : String)
  | rmtree (path : String)
  | hdrEdit (path : String)
deriving DecidableEq

structure FS where
  files : List String
  dirs : List String
deriving DecidableEq

structure StackArgs where
  srcfiles : List Entry
  dstfile : String
  resampling : String
  targetres : TargetRes
  srcnodata : Int
  dstnodata : Int
  shapefile : Option Shapefile
  layernames : Option (List String)
  sortfun : Option (String → Int)
  separate : Bool
  overwrite : Bool
  /-- compress and cores only alter warp creation options and the worker
  count; they have no observable effect in the model -/
  compress : Bool
  cores : Nat

/-- The raster collaborator: what `Raster(x).projection` returns. -/
structure RasterEnv where
  proj : String → String

structure StackOutcome where
  result : Except PyError Unit
  events : List Event
  caller : List Entry
  fs : FS

def allowedResampling : List String :=
  ["near", "bilinear", "cubic", "cubicspline", "lanczos", "average", "mode", "max", "min",
   "med", "Q1", "Q3"]

/-- Line 441-443: layernames, when given, must have one name per source
file group. -/
def layernamesBad (srcfiles : List Entry) : Option (List String) → Bool
  | some ls => ls.length != srcfiles.length
  | none => false

/-- Line 448: `len(srcfiles) == 1 and not isinstance(srcfiles[0], list)`. -/
def singleNonList : List Entry → Bool
  | [Entry.group _] => false
  | [_] => true
  | _ => false

/-- The precondition checks of lines 440-453, in source order.  Line 445
reads `if not isinstance(targetres, list) and len(targetres) != 2`: for a
scalar the first conjunct holds and evaluating `len` of the scalar raises
TypeError; for a list the conjunction short-circuits to False, so the
length of a list targetres is never validated (the `and` where the error
message promises an `or`). -/
def stackValidate (a : StackArgs) : Option PyError :=
  if layernamesBad a.srcfiles a.layernames then some .layernamesMismatch
  else
    match a.targetres with
    | .scalar _ => some .typeError
    | .list _ =>
        if singleNonList a.srcfiles then some .singleFile
        else if a.resampling ∈ allowedResampling then none
        else some .resamplingUnsupported

/-- ancillary.dissolve applied to the srcfiles list (line 455): flattens
group entries.  A pynone entry cannot occur here (they only arise later,
inside the shapefile filtering). -/
def dissolveE : List Entry → List String
  | [] => []
  | Entry.file s :: rest => s :: dissolveE rest
  | Entry.group g :: rest => g ++ dissolveE rest
  | Entry.pynone :: rest => dissolveE rest

/-- Line 455: `list(set([Raster(x).projection for x in dissolve(srcfiles)]))`,
i.e. the distinct projections of all source files. -/
def stackProjections (env : RasterEnv) (a : StackArgs) : List String :=
  ((dissolveE a.srcfiles).map env.proj).dedup

/-- The Raster opens performed while collecting the projections. -/
def stackOpenEvents (a : StackArgs) : List Event :=
  (dissolveE a.srcfiles).map Event.rasterOpen

/-- Line 468: `sorted(srcfiles[i], key=sortfun) if isinstance(srcfiles[i], list)
else [srcfiles[i]]`; Python sorted is a stable ascending sort (by the
key, or by code-point string comparison when sortfun is None). -/
def sortedMembers (sortfun : Option (String → Int)) : Entry → List String
  | .file s => [s]
  | .group g =>
      match sortfun with
      | some f => List.insertionSort (fun x y => f x ≤ f y) g
      | none => List.insertionSort (fun x y => charListLt y.toList x.toList = false) g
  | .pynone => []

/-- Lines 468-475: one iteration of the shapefile filtering loop — keep
the members intersecting the shapefile, then store back a list (more
than one member), the bare member (exactly one) or None (none). -/
def filterEntry (inter : String → Bool) (sortfun : Option (String → Int)) (e : Entry) :
    Entry :=
  let group := (sortedMembers sortfun e).filter inter
  if 1 < group.length then Entry.group group
  else
    match group with
    | [x] => Entry.file x
    | _ => Entry.pynone

/-- The member lists of an entry after filtering. -/
def entryMembers : Entry → List String
  | .file s => [s]
  | .group g => g
  | .pynone => []

/-- The Raster opens performed by `intersect(shp, Raster(x).bbox())` over
all group members during the filtering loop. -/
def filterOpenEvents (sortfun : Option (String → Int)) (srcfiles : List Entry) : List Event :=
  (srcfiles.flatMap (sortedMembers sortfun)).map Event.rasterOpen

/-- The caller-visible srcfiles list after the filtering loop (the loop
assigns `srcfiles[i] = ...` in place, lines 471-475); without a shapefile
the list is untouched. -/
def stackCaller1 (a : StackArgs) : List Entry :=
  match a.shapefile with
  | some shp => a.srcfiles.map (filterEntry shp.inter a.sortfun)
  | none => a.srcfiles

/-- Line 476: `srcfiles = filter(None, srcfiles)` — the local name is
rebound to the None-free list (so later in-place updates no longer reach
the caller); without a shapefile the local still aliases the caller list. -/
def stackLocal1 (a : StackArgs) : List Entry :=
  match a.shapefile with
  | some shp => (a.srcfiles.map (filterEntry shp.inter a.sortfun)).filter
      (fun e => decide (e ≠ Entry.pynone))
  | none => a.srcfiles

/-- Line 481: `dst_base = os.path.splitext(dstfile)[0]`. -/
def stackDstBase (a : StackArgs) : String := splitextBase a.dstfile

/-- Line 482: `tmpdir = dst_base + '__tmp'`. -/
def stackTmpdir (a : StackArgs) : String := stackDstBase a ++ "__tmp"

/-- Lines 503-504: the VRT path for one entry, derived from the basename
of the first group member (`srcfiles[i][0]` raises IndexError on an empty
caller-supplied group; os.path.basename(None) would raise TypeError, but
None entries were already dropped at line 476). -/
def vrtName (tmpdir : String) : Entry → Except PyError String
  | .file s => .ok (tmpdir ++ "/" ++ splitextBase (basename s) ++ ".vrt")
  | .group (s :: _) => .ok (tmpdir ++ "/" ++ splitextBase (basename s) ++ ".vrt")
  | .group [] => .error .indexError
  | .pynone => .error .typeError

structure VrtOut where
  /-- the rebound local list after the loop: the VRT paths -/
  paths : List String
  /-- the gdalbuildvrt invocations -/
  events : List Event
  /-- the caller-visible entries: processed prefix replaced by VRT file
  entries, unprocessed suffix untouched when an error interrupts -/
  entries : List Entry
  err : Option PyError
deriving DecidableEq

/-- The VRT-building loop of lines 502-506: for each group a virtual
mosaic is built in the temporary directory and the list slot is
overwritten with the VRT path. -/
def vrtLoop (tmpdir : String) : List Entry → VrtOut
  | [] => ⟨[], [], [], none⟩
  | e :: rest =>
      match vrtName tmpdir e with
      | .error err => ⟨[], [], e :: rest, some err⟩
      | .ok v =>
          let out := vrtLoop tmpdir rest
          ⟨v :: out.paths, Event.buildvrt v :: out.events, Entry.file v :: out.entries, out.err⟩

/-- The local srcfiles after the VRT loop. -/
def stackLocal2 (a : StackArgs) : List String :=
  (vrtLoop (stackTmpdir a) (stackLocal1 a)).paths

/-- Lines 510-511: when no layernames are given and a sortfun is set, the
local list is rebound to the sorted list. -/
def stackLocal3 (a : StackArgs) : List String :=
  match a.layernames, a.sortfun with
  | none, some f => List.insertionSort (fun x y => f x ≤ f y) (stackLocal2 a)
  | _, _ => stackLocal2 a

/-- Line 513: output layer names — basenames without extension, or the
caller-supplied names. -/
def stackBandnames (a : StackArgs) : List String :=
  match a.layernames with
  | some ls => ls
  | none => (stackLocal3 a).map (fun s => splitextBase (basename s))

/-- Line 518: `dstfiles = [os.path.join(dstfile, x) + '.tif' for x in bandnames]`. -/
def stackDstfiles (a : StackArgs) : List String :=
  (stackBandnames a).map (fun b => a.dstfile ++ "/" ++ b ++ ".tif")

/-- Line 520/522: the (source VRT, destination tile) pairs. -/
def stackPairs (a : StackArgs) : List (String × String) :=
  (stackLocal3 a).zip (stackDstfiles a)

/-- Lines 519-522: with overwrite all pairs are warped; without it only
those whose destination tile does not exist. -/
def stackFilesL (a : StackArgs) (files : List String) : List (String × String) :=
  if a.overwrite then stackPairs a
  else (stackPairs a).filter (fun p => !(files.contains p.2))

def addDir (fs : FS) (d : String) : FS := { fs with dirs := fs.dirs ++ [d] }

def rmDir (fs : FS) (d : String) : FS :=
  { fs with dirs := fs.dirs.filter (fun x => decide (x ≠ d)) }

def addFiles (fs : FS) (l : List String) : FS := { fs with files := fs.files ++ l }

/-- Lines 515-529: the separate-output branch — create the destination
directory if needed, skip existing tiles unless overwrite, return early
(after removing the temporary directory) when nothing is left to do with
overwrite off, else warp every remaining pair via multicore (whose
per-job results are discarded, see `multicore`).  When overwrite is set
and no pair remains (every group was dropped by the extent filter), the
early return of lines 523-526 is not taken and line 527
`srcfiles, dstfiles = map(list, zip(*files))` raises ValueError while
unpacking the empty list; the exception propagates, so no warp runs and
the temporary directory is NOT removed. -/
def stackSeparateBranch (a : StackArgs) (fs1 : FS) (evs : List Event)
    (caller : List Entry) : StackOutcome :=
  let mkd := if fs1.dirs.contains a.dstfile then (([] : List Event), fs1)
             else ([Event.makeDirs a.dstfile], addDir fs1 a.dstfile)
  let files := stackFilesL a fs1.files
  if !a.overwrite && files.isEmpty then
    ⟨.ok (), evs ++ mkd.1 ++ [.rmtree (stackTmpdir a)], caller, rmDir mkd.2 (stackTmpdir a)⟩
  else if files.isEmpty then
    ⟨.error .valueError, evs ++ mkd.1, caller, mkd.2⟩
  else
    ⟨.ok (), evs ++ mkd.1 ++ files.map (fun p => Event.warp p.1 p.2) ++
        [.rmtree (stackTmpdir a)],
      caller, rmDir (addFiles mkd.2 (files.map (fun p => p.2))) (stackTmpdir a)⟩

/-- Lines 530-542: the combined-cube branch — build a band-stacking VRT,
warp it once onto the destination, rewrite the ENVI header band names,
then remove the temporary directory (line 545). -/
def stackCubeBranch (a : StackArgs) (fs1 : FS) (evs : List Event)
    (caller : List Entry) : StackOutcome :=
  let vrt := stackTmpdir a ++ "/" ++ basename (stackDstBase a) ++ ".vrt"
  ⟨.ok (), evs ++ [.buildvrt vrt, .warp vrt a.dstfile, .hdrEdit (a.dstfile ++ ".hdr"),
      .rmtree (stackTmpdir a)],
    caller, rmDir (addFiles fs1 [a.dstfile, a.dstfile ++ ".hdr"]) (stackTmpdir a)⟩

/-- `stack(srcfiles, dstfile, resampling, targetres, ...)` of raster.py.
The stages appear in source order: precondition checks (440-453),
projection collection and uniqueness check (455-459), shapefile extent
filtering (462-476), temporary-directory creation (481-484), warp-option
construction — where `targetres[0]` and `targetres[1]` raise IndexError
for a list shorter than two entries (490) — VRT construction (502-506),
optional sorting (510-511), band naming (513) and the output branch
(515-545). -/
def stack (a : StackArgs) (env : RasterEnv) (fs : FS) : StackOutcome :=
  match stackValidate a with
  | some e => ⟨.error e, [], a.srcfiles, fs⟩
  | none =>
      match stackProjections env a with
      | [] => ⟨.error .indexError, stackOpenEvents a, a.srcfiles, fs⟩
      | _ :: _ :: _ => ⟨.error .projectionMismatch, stackOpenEvents a, a.srcfiles, fs⟩
      | [_] =>
          let evs0 := stackOpenEvents a ++
            (match a.shapefile with
             | some _ => filterOpenEvents a.sortfun a.srcfiles
             | none => [])
          let caller1 := stackCaller1 a
          let tmpdir := stackTmpdir a
          let mkt := if fs.dirs.contains tmpdir then (([] : List Event), fs)
                     else ([Event.makeDirs tmpdir], addDir fs tmpdir)
          let evs1 := evs0 ++ mkt.1
          match a.targetres with
          | .scalar _ => ⟨.error .typeError, evs1, caller1, mkt.2⟩
          | .list l =>
              if l.length < 2 then ⟨.error .indexError, evs1, caller1, mkt.2⟩
              else
                let out := vrtLoop tmpdir (stackLocal1 a)
                let caller2 := if a.shapefile.isNone then out.entries else caller1
                match out.err with
                | some e => ⟨.error e, evs1 ++ out.events, caller2, mkt.2⟩
                | none =>
                    if a.separate || (stackLocal3 a).length == 1 then
                      stackSeparateBranch a mkt.2 (evs1 ++ out.events) caller2
                    else
                      stackCubeBranch a mkt.2 (evs1 ++ out.events) caller2

def isWarp : Event → Bool
  | .warp _ _ => true
  | _ => false

/-- Events that create something on disk: directories, virtual mosaics,
warped outputs, header edits. -/
def eventCreates : Event → Bool
  | .makeDirs _ => true
  | .buildvrt _ => true
  | .warp _ _ => true
  | .hdrEdit _ => true
  | _ => false

theorem filter_map_events (p : Event → Bool) (f : String → Event) (l : List String)
    (h : ∀ s, p (f s) = false) : (l.map f).filter p = [] := by
  induction l with
  | nil => rfl
  | cons x xs ih => simp [List.filter_cons, h x, ih]

/-- C7: when the source files carry more than one distinct spatial
reference, stack raises the projection-mismatch error having performed
only the metadata opens: the trace holds no directory creation, no
virtual mosaic, no warp and no header edit, the file system is unchanged
and the caller list is untouched. -/
theorem C7_projection_mismatch (a : StackArgs) (env : RasterEnv) (fs : FS)
    (hval : stackValidate a = none)
    (p q : String) (rest : List String)
    (hproj : stackProjections env a = p :: q :: rest) :
    (stack a env fs).result = .error .projectionMismatch ∧
    (stack a env fs).events = stackOpenEvents a ∧
    ((stack a env fs).events.filter eventCreates) = [] ∧
    (stack a env fs).fs = fs ∧
    (stack a env fs).caller = a.srcfiles := by
  unfold stack
  rw [hval, hproj]
  refine ⟨rfl, rfl, ?_, rfl, rfl⟩
  exact filter_map_events eventCreates Event.rasterOpen _ (fun s => rfl)

def c7args : StackArgs :=
  { srcfiles := [Entry.file "a.tif", Entry.file "b.tif"], dstfile := "out",
    resampling := "near", targetres := .list [10, 10], srcnodata := 0, dstnodata := 0,
    shapefile := none, layernames := none, sortfun := none, separate := false,
    overwrite := false, compress := true, cores := 4 }

def c7env : RasterEnv := ⟨fun s => s⟩

/-- C7 (witness): two files whose projections differ; the pipeline stops
with the mismatch error and creates nothing. -/
theorem C7_projection_mismatch_witness :
    stackValidate c7args = none ∧
    stackProjections c7env c7args = ["a.tif", "b.tif"] ∧
    (stack c7args c7env ⟨[], []⟩).result = .error .projectionMismatch ∧
    ((stack c7args c7env ⟨[], []⟩).events.filter eventCreates) = [] ∧
    (stack c7args c7env ⟨[], []⟩).fs = ⟨[], []⟩ :=
  ⟨by decide, by decide,
    (C7_projection_mismatch c7args c7env ⟨[], []⟩ (by decide) "a.tif" "b.tif" [] (by decide)).1,
    (C7_projection_mismatch c7args c7env ⟨[], []⟩ (by decide) "a.tif" "b.tif" [] (by decide)).2.2.1,
    (C7_projection_mismatch c7args c7env ⟨[], []⟩ (by decide) "a.tif" "b.tif" [] (by decide)).2.2.2.1⟩

def c2args : StackArgs := { c7args with targetres := .list [10, 10, 10], separate := true }

def c2env : RasterEnv := ⟨fun _ => "EPSG4326"⟩

/-- C2: the claim asserts that a targetres which is not a list of exactly
two entries makes stack raise before any raster I/O or file/directory
creation.  The guard of line 445 is
`not isinstance(targetres, list) and len(targetres) != 2`: for a LIST of
three entries the first conjunct is False and the conjunction
short-circuits, so no validation error is raised at all — the pipeline
runs to completion, opening the sources, creating the temporary and
destination directories and warping every tile (the scalar and
wrong-length-tuple cases do raise, but the wrong-length-list case
refutes the universally quantified claim). -/
theorem C2_targetres_list_unvalidated :
    c2args.targetres = TargetRes.list [10, 10, 10] ∧
    stackValidate c2args = none ∧
    (stack c2args c2env ⟨[], []⟩).result = .ok () ∧
    (stack c2args c2env ⟨[], []⟩).events =
      [Event.rasterOpen "a.tif", Event.rasterOpen "b.tif",
       Event.makeDirs "out__tmp",
       Event.buildvrt "out__tmp/a.vrt", Event.buildvrt "out__tmp/b.vrt",
       Event.makeDirs "out",
       Event.warp "out__tmp/a.vrt" "out/a.tif", Event.warp "out__tmp/b.vrt" "out/b.tif",
       Event.rmtree "out__tmp"] := by
  exact ⟨rfl, by decide, rfl, by decide⟩

theorem vrtLoop_filter_isWarp (t : String) (l : List Entry) :
    (vrtLoop t l).events.filter isWarp = [] := by
  induction l with
  | nil => rfl
  | cons x xs ih =>
      unfold vrtLoop
      cases hv : vrtName t x
      case error err => rfl
      case ok v =>
          dsimp only
          simp [List.filter_cons, isWarp, ih]

theorem stackOpen_filter_isWarp (a : StackArgs) :
    (stackOpenEvents a).filter isWarp = [] :=
  filter_map_events isWarp Event.rasterOpen _ (fun _ => rfl)

theorem filterOpen_filter_isWarp (sf : Option (String → Int)) (srcs : List Entry) :
    (filterOpenEvents sf srcs).filter isWarp = [] :=
  filter_map_events isWarp Event.rasterOpen _ (fun _ => rfl)

/-- Reduction of stack to the separate branch once the preconditions
pass, the projection is unique, targetres is a list of at least two
entries, the VRT loop succeeds and separate is requested. -/
theorem stack_reaches_separate (a : StackArgs) (env : RasterEnv) (fs : FS) (p : String)
    (hval : stackValidate a = none)
    (hproj : stackProjections env a = [p])
    (hsep : a.separate = true)
    (l : List Int) (htr : a.targetres = .list l) (hlen : ¬ l.length < 2)
    (herr : (vrtLoop (stackTmpdir a) (stackLocal1 a)).err = none) :
    stack a env fs = stackSeparateBranch a
      (if fs.dirs.contains (stackTmpdir a) then fs else addDir fs (stackTmpdir a))
      (stackOpenEvents a ++
        (match a.shapefile with
         | some _ => filterOpenEvents a.sortfun a.srcfiles
         | none => ([] : List Event)) ++
        (if fs.dirs.contains (stackTmpdir a) then ([] : List Event)
         else [Event.makeDirs (stackTmpdir a)]) ++
        (vrtLoop (stackTmpdir a) (stackLocal1 a)).events)
      (if a.shapefile.isNone then (vrtLoop (stackTmpdir a) (stackLocal1 a)).entries
       else stackCaller1 a) := by
  unfold stack
  rw [hval, hproj, htr]
  dsimp only
  rw [if_neg hlen, herr]
  dsimp only
  rw [hsep]
  simp only [Bool.true_or, if_true]
  cases hd : fs.dirs.contains (stackTmpdir a) <;> rfl

/-- The separate branch with overwrite off and no pending pairs: early
success, no warp, temporary directory removed. -/
theorem stackSeparateBranch_noop (a : StackArgs) (fs1 : FS) (evs : List Event)
    (caller : List Entry)
    (hov : a.overwrite = false)
    (hexist : stackFilesL a fs1.files = []) :
    (stackSeparateBranch a fs1 evs caller).result = .ok () ∧
    (stackSeparateBranch a fs1 evs caller).events.filter isWarp = evs.filter isWarp ∧
    Event.rmtree (stackTmpdir a) ∈ (stackSeparateBranch a fs1 evs caller).events := by
  unfold stackSeparateBranch
  rw [hov, hexist]
  dsimp only
  cases hd : fs1.dirs.contains a.dstfile <;>
    simp [hd, List.filter_append, List.filter_cons, isWarp]

/-- C3: in separate-output mode with overwrite off, when every
destination tile already exists, stack succeeds, performs zero warp
calls and removes the temporary intermediate directory. -/
theorem C3_idempotent_noop (a : StackArgs) (env : RasterEnv) (fs : FS) (p : String)
    (hval : stackValidate a = none)
    (hproj : stackProjections env a = [p])
    (hsep : a.separate = true)
    (hov : a.overwrite = false)
    (l : List Int) (htr : a.targetres = .list l) (hlen : ¬ l.length < 2)
    (herr : (vrtLoop (stackTmpdir a) (stackLocal1 a)).err = none)
    (hexist : stackFilesL a fs.files = []) :
    (stack a env fs).result = .ok () ∧
    ((stack a env fs).events.filter isWarp) = [] ∧
    Event.rmtree (stackTmpdir a) ∈ (stack a env fs).events := by
  have hred := stack_reaches_separate a env fs p hval hproj hsep l htr hlen herr
  have hfiles : (if fs.dirs.contains (stackTmpdir a) then fs
      else addDir fs (stackTmpdir a)).files = fs.files := by
    split <;> rfl
  have hnoop := stackSeparateBranch_noop a
    (if fs.dirs.contains (stackTmpdir a) then fs else addDir fs (stackTmpdir a))
    (stackOpenEvents a ++
      (match a.shapefile with
       | some _ => filterOpenEvents a.sortfun a.srcfiles
       | none => ([] : List Event)) ++
      (if fs.dirs.contains (stackTmpdir a) then ([] : List Event)
       else [Event.makeDirs (stackTmpdir a)]) ++
      (vrtLoop (stackTmpdir a) (stackLocal1 a)).events)
    (if a.shapefile.isNone then (vrtLoop (stackTmpdir a) (stackLocal1 a)).entries
     else stackCaller1 a)
    hov (by rw [hfiles]; exact hexist)
  have hevs : (stackOpenEvents a ++
      (match a.shapefile with
       | some _ => filterOpenEvents a.sortfun a.srcfiles
       | none => ([] : List Event)) ++
      (if fs.dirs.contains (stackTmpdir a) then ([] : List Event)
       else [Event.makeDirs (stackTmpdir a)]) ++
      (vrtLoop (stackTmpdir a) (stackLocal1 a)).events).filter isWarp = [] := by
    rw [List.filter_append, List.filter_append, List.filter_append]
    rw [stackOpen_filter_isWarp, vrtLoop_filter_isWarp]
    have h2 : (match a.shapefile with
        | some _ => filterOpenEvents a.sortfun a.srcfiles
        | none => ([] : List Event)).filter isWarp = [] := by
      cases a.shapefile
      · rfl
      · exact filterOpen_filter_isWarp _ _
    have h3 : (if fs.dirs.contains (stackTmpdir a) then ([] : List Event)
        else [Event.makeDirs (stackTmpdir a)]).filter isWarp = [] := by
      split <;> rfl
    rw [h2, h3]
    rfl
  rw [hred]
  exact ⟨hnoop.1, by rw [hnoop.2.1, hevs], hnoop.2.2⟩

def c3args : StackArgs := { c7args with separate := true }

def c3fs : FS := ⟨["out/a.tif", "out/b.tif"], []⟩

/-- C3 (witness): two single-file groups, separate output, overwrite off,
both destination tiles already present: the run succeeds with zero warps
and removes the temporary directory. -/
theorem C3_idempotent_noop_witness :
    stackValidate c3args = none ∧
    stackProjections c2env c3args = ["EPSG4326"] ∧
    c3args.separate = true ∧ c3args.overwrite = false ∧
    c3args.targetres = TargetRes.list [10, 10] ∧
    (vrtLoop (stackTmpdir c3args) (stackLocal1 c3args)).err = none ∧
    stackFilesL c3args c3fs.files = [] ∧
    ((stack c3args c2env c3fs).result = .ok () ∧
     ((stack c3args c2env c3fs).events.filter isWarp) = [] ∧
     Event.rmtree (stackTmpdir c3args) ∈ (stack c3args c2env c3fs).events) :=
  ⟨by decide, by decide, rfl, rfl, rfl, by decide, by decide,
    C3_idempotent_noop c3args c2env c3fs "EPSG4326" (by decide) (by decide) rfl rfl
      [10, 10] rfl (by decide) (by decide) (by decide)⟩

theorem filterEntry_not_empty_group (inter : String → Bool) (sf : Option (String → Int))
    (e : Entry) : filterEntry inter sf e ≠ Entry.group [] := by
  unfold filterEntry
  dsimp only
  split
  case isTrue h =>
      intro hcontra
      injection hcontra with h2
      rw [h2] at h
      simp at h
  case isFalse h =>
      split
      · intro hcontra
        cases hcontra
      · intro hcontra
        cases hcontra

theorem vrtName_ok (t : String) (e : Entry) (h1 : e ≠ Entry.pynone)
    (h2 : e ≠ Entry.group []) : ∃ v, vrtName t e = .ok v := by
  match e with
  | Entry.file s => exact ⟨_, rfl⟩
  | Entry.group [] => exact absurd rfl h2
  | Entry.group (s :: g) => exact ⟨_, rfl⟩
  | Entry.pynone => exact absurd rfl h1

theorem vrtLoop_err_none (t : String) (l : List Entry)
    (h : ∀ e ∈ l, e ≠ Entry.pynone ∧ e ≠ Entry.group []) :
    (vrtLoop t l).err = none := by
  induction l with
  | nil => rfl
  | cons x xs ih =>
      unfold vrtLoop
      cases hv : vrtName t x
      case error err =>
          obtain ⟨v, hok⟩ := vrtName_ok t x (h x (by simp)).1 (h x (by simp)).2
          rw [hok] at hv
          cases hv
      case ok v =>
          dsimp only
          exact ih (fun e he => h e (by simp [he]))

theorem stackLocal1_wf (a : StackArgs) (shp : Shapefile) (h : a.shapefile = some shp) :
    ∀ e ∈ stackLocal1 a, e ≠ Entry.pynone ∧ e ≠ Entry.group [] := by
  intro e he
  unfold stackLocal1 at he
  rw [h] at he
  obtain ⟨hmem, hpy⟩ := List.mem_filter.mp he
  obtain ⟨x, _, hx⟩ := List.mem_map.mp hmem
  constructor
  · simpa using hpy
  · rw [← hx]
    exact filterEntry_not_empty_group shp.inter a.sortfun x

/-- The separate branch succeeds unless overwrite is set while no
(src, dst) pair remains — in that region line 527 raises ValueError. -/
theorem stackSeparateBranch_result (a : StackArgs) (fs1 : FS) (evs : List Event)
    (caller : List Entry)
    (h : a.overwrite = false ∨ stackFilesL a fs1.files ≠ []) :
    (stackSeparateBranch a fs1 evs caller).result = .ok () := by
  unfold stackSeparateBranch
  dsimp only
  by_cases h1 : (!a.overwrite && (stackFilesL a fs1.files).isEmpty) = true
  · rw [if_pos h1]
  · rw [if_neg h1]
    have hne : (stackFilesL a fs1.files).isEmpty = false := by
      rcases h with hov | hfe
      · rw [hov] at h1
        simpa using h1
      · simpa [List.isEmpty_iff] using hfe
    rw [if_neg (by simp [hne])]

/-- stack succeeds whenever the preconditions pass, the projection is
unique, targetres is a list of at least two entries, the VRT loop runs
through (in particular, the shapefile filtering never raises), and the
separate branch is not in its empty-pairs-with-overwrite region. -/
theorem stack_result_ok (a : StackArgs) (env : RasterEnv) (fs : FS) (p : String)
    (hval : stackValidate a = none)
    (hproj : stackProjections env a = [p])
    (l : List Int) (htr : a.targetres = .list l) (hlen : ¬ l.length < 2)
    (herr : (vrtLoop (stackTmpdir a) (stackLocal1 a)).err = none)
    (hbr : a.overwrite = false ∨ stackFilesL a fs.files ≠ []) :
    (stack a env fs).result = .ok () := by
  unfold stack
  rw [hval, hproj, htr]
  dsimp only
  rw [if_neg hlen, herr]
  dsimp only
  by_cases hd : fs.dirs.contains (stackTmpdir a) = true
  · rw [if_pos hd]
    split
    · exact stackSeparateBranch_result _ _ _ _ hbr
    · rfl
  · rw [if_neg hd]
    split
    · exact stackSeparateBranch_result _ _ _ _ hbr
    · rfl

theorem vrtLoop_paths_ne_nil (t : String) (l : List Entry) (hl : l ≠ [])
    (herr : (vrtLoop t l).err = none) : (vrtLoop t l).paths ≠ [] := by
  cases l with
  | nil => exact absurd rfl hl
  | cons x xs =>
      rw [vrtLoop] at herr ⊢
      cases hv : vrtName t x
      case error err =>
          rw [hv] at herr
          simp at herr
      case ok v =>
          dsimp only
          simp

theorem insertionSort_ne_nil {α : Type} (r : α → α → Prop) [DecidableRel r]
    (l : List α) (h : l ≠ []) : List.insertionSort r l ≠ [] := by
  intro hc
  apply h
  have hlen := List.length_insertionSort r l
  rw [hc] at hlen
  exact List.length_eq_zero.mp hlen.symm

theorem stackLocal3_ne_nil (a : StackArgs) (h : stackLocal2 a ≠ []) :
    stackLocal3 a ≠ [] := by
  unfold stackLocal3
  cases hln : a.layernames <;> cases hsf : a.sortfun
  · exact h
  · exact insertionSort_ne_nil _ _ h
  · exact h
  · exact h

theorem stackLocal3_nil (a : StackArgs) (h : stackLocal2 a = []) :
    stackLocal3 a = [] := by
  unfold stackLocal3
  cases hln : a.layernames <;> cases hsf : a.sortfun
  · exact h
  · rw [h]
    rfl
  · exact h
  · exact h

theorem stackBandnames_ne_nil (a : StackArgs) (hval : stackValidate a = none)
    (hsrc : a.srcfiles ≠ []) (h3 : stackLocal3 a ≠ []) : stackBandnames a ≠ [] := by
  unfold stackBandnames
  cases hln : a.layernames with
  | none => simpa using h3
  | some ls =>
      have hb : layernamesBad a.srcfiles a.layernames = false := by
        unfold stackValidate at hval
        by_cases hbb : layernamesBad a.srcfiles a.layernames = true
        · rw [if_pos hbb] at hval
          cases hval
        · simpa using hbb
      rw [hln] at hb
      unfold layernamesBad at hb
      dsimp only at hb
      intro hc
      dsimp only at hc
      rw [hc] at hb
      simp at hb
      apply hsrc
      apply List.length_eq_zero.mp
      omega

theorem stack_zip_ne_nil {α β : Type} (l1 : List α) (l2 : List β) (h1 : l1 ≠ [])
    (h2 : l2 ≠ []) : l1.zip l2 ≠ [] := by
  cases l1 with
  | nil => exact absurd rfl h1
  | cons a as =>
      cases l2 with
      | nil => exact absurd rfl h2
      | cons b bs => simp [List.zip_cons_cons]

theorem stackPairs_ne_nil (a : StackArgs) (hval : stackValidate a = none)
    (hsrc : a.srcfiles ≠ []) (hl2 : stackLocal2 a ≠ []) : stackPairs a ≠ [] := by
  have h3 := stackLocal3_ne_nil a hl2
  have hband := stackBandnames_ne_nil a hval hsrc h3
  have hdst : stackDstfiles a ≠ [] := by
    unfold stackDstfiles
    simpa using hband
  unfold stackPairs
  exact stack_zip_ne_nil _ _ h3 hdst

/-- C4 (amended): with a clip shapefile every group keeps exactly the
(sorted) members whose bounding box intersects it; a group with no
intersecting member becomes None — the drop itself raises nothing — and
is removed from the list the pipeline continues with; a group with
exactly one surviving member is flattened to a bare file entry; and as
long as AT LEAST ONE group survives (and the remaining side conditions
hold) the pipeline runs to a successful end.  When every group is
dropped, however, the pipeline does not simply continue: with overwrite
set, srcfiles and dstfiles are both empty, the early return of lines
523-526 is skipped, and line 527 raises ValueError while unpacking the
empty pair list. -/
theorem C4_extent_filter :
    (∀ (inter : String → Bool) (sf : Option (String → Int)) (e : Entry),
        entryMembers (filterEntry inter sf e) = (sortedMembers sf e).filter inter) ∧
    (∀ (inter : String → Bool) (sf : Option (String → Int)) (e : Entry),
        (sortedMembers sf e).filter inter = [] → filterEntry inter sf e = Entry.pynone) ∧
    (∀ (inter : String → Bool) (sf : Option (String → Int)) (e : Entry) (x : String),
        (sortedMembers sf e).filter inter = [x] → filterEntry inter sf e = Entry.file x) ∧
    (∀ (a : StackArgs) (shp : Shapefile), a.shapefile = some shp →
        stackLocal1 a = (a.srcfiles.map (filterEntry shp.inter a.sortfun)).filter
          (fun e => decide (e ≠ Entry.pynone))) ∧
    (∀ (a : StackArgs) (env : RasterEnv) (fs : FS) (p : String) (l : List Int)
        (shp : Shapefile), a.shapefile = some shp → stackValidate a = none →
        stackProjections env a = [p] → a.targetres = .list l → ¬ l.length < 2 →
        stackLocal1 a ≠ [] →
        (stack a env fs).result = .ok ()) ∧
    (∀ (a : StackArgs) (env : RasterEnv) (fs : FS) (p : String) (l : List Int)
        (shp : Shapefile), a.shapefile = some shp → stackValidate a = none →
        stackProjections env a = [p] → a.targetres = .list l → ¬ l.length < 2 →
        stackLocal1 a = [] → a.separate = true → a.overwrite = true →
        (stack a env fs).result = .error .valueError) := by
  refine ⟨?_, ?_, ?_, ?_, ?_, ?_⟩
  · intro inter sf e
    unfold filterEntry
    dsimp only
    split
    case isTrue h => rfl
    case isFalse h =>
        cases hg : (sortedMembers sf e).filter inter with
        | nil => rfl
        | cons x xs =>
            cases xs with
            | nil => rfl
            | cons y ys =>
                exfalso
                apply h
                rw [hg]
                simp
  · intro inter sf e hg
    unfold filterEntry
    dsimp only
    rw [hg]
    rfl
  · intro inter sf e x hg
    unfold filterEntry
    dsimp only
    rw [hg]
    rfl
  · intro a shp h
    unfold stackLocal1
    rw [h]
  · intro a env fs p l shp hsh hval hproj htr hlen hsurv
    have herr := vrtLoop_err_none (stackTmpdir a) (stackLocal1 a) (stackLocal1_wf a shp hsh)
    have hsrc : a.srcfiles ≠ [] := by
      intro hc
      apply hsurv
      unfold stackLocal1
      rw [hsh, hc]
      rfl
    have hl2 : stackLocal2 a ≠ [] := by
      unfold stackLocal2
      exact vrtLoop_paths_ne_nil (stackTmpdir a) (stackLocal1 a) hsurv herr
    have hbr : a.overwrite = false ∨ stackFilesL a fs.files ≠ [] := by
      cases hov : a.overwrite
      · exact Or.inl rfl
      · right
        have hp := stackPairs_ne_nil a hval hsrc hl2
        unfold stackFilesL
        rw [hov]
        simpa using hp
    exact stack_result_ok a env fs p hval hproj l htr hlen herr hbr
  · intro a env fs p l shp hsh hval hproj htr hlen hnil hsep hov
    have hpairs : stackPairs a = [] := by
      have hl2 : stackLocal2 a = [] := by
        unfold stackLocal2
        rw [hnil]
        rfl
      have hl3 := stackLocal3_nil a hl2
      unfold stackPairs
      rw [hl3]
      rfl
    have hfl : ∀ fls : List String, stackFilesL a fls = [] := by
      intro fls
      unfold stackFilesL
      rw [hov, if_pos rfl]
      exact hpairs
    unfold stack
    rw [hval, hproj, htr]
    dsimp only
    rw [if_neg hlen, hnil]
    dsimp only [vrtLoop]
    have hc : (a.separate || (stackLocal3 a).length == 1) = true := by
      rw [hsep]
      rfl
    rw [hc, if_pos rfl]
    unfold stackSeparateBranch
    dsimp only
    rw [hfl, hov]
    rfl

def c4shp : Shapefile := ⟨fun s => s == "b.tif"⟩

def c4args : StackArgs :=
  { srcfiles := [Entry.group ["a.tif", "b.tif"], Entry.file "c.tif"], dstfile := "out",
    resampling := "near", targetres := .list [10, 10], srcnodata := 0, dstnodata := 0,
    shapefile := some c4shp, layernames := none, sortfun := none, separate := false,
    overwrite := false, compress := true, cores := 4 }

def c4xshp : Shapefile := ⟨fun _ => false⟩

def c4xargs : StackArgs :=
  { srcfiles := [Entry.file "a.tif", Entry.file "b.tif"], dstfile := "out",
    resampling := "near", targetres := .list [10, 10], srcnodata := 0, dstnodata := 0,
    shapefile := some c4xshp, layernames := none, sortfun := none, separate := true,
    overwrite := true, compress := true, cores := 4 }

/-- C4: counterexample.  A clip extent intersecting nothing, with
separate output and overwrite set: both groups are dropped by the extent
filter, and instead of continuing, the run ends with the ValueError of
line 527 — after the source opens and the creation of both directories,
and without removing the temporary directory (the exception propagates
past the cleanup of line 545). -/
theorem C4_counterexample :
    filterEntry c4xshp.inter (none : Option (String → Int)) (Entry.file "a.tif")
      = Entry.pynone ∧
    filterEntry c4xshp.inter (none : Option (String → Int)) (Entry.file "b.tif")
      = Entry.pynone ∧
    (stack c4xargs c2env ⟨[], []⟩).result = .error .valueError ∧
    (stack c4xargs c2env ⟨[], []⟩).events =
      [Event.rasterOpen "a.tif", Event.rasterOpen "b.tif",
       Event.rasterOpen "a.tif", Event.rasterOpen "b.tif",
       Event.makeDirs "out__tmp", Event.makeDirs "out"] :=
  ⟨by decide, by decide, rfl, by decide⟩

/-- C4 (witness): a clip extent intersecting only b.tif: the two-member
group is reduced to one member and flattened to a bare entry, the
single-file group loses its only member and becomes None (later
dropped), one group survives, and the whole pipeline still ends
successfully. -/
theorem C4_extent_filter_witness :
    ((sortedMembers (none : Option (String → Int)) (Entry.group ["a.tif", "b.tif"])).filter
        c4shp.inter = ["b.tif"] ∧
     filterEntry c4shp.inter (none : Option (String → Int)) (Entry.group ["a.tif", "b.tif"])
        = Entry.file "b.tif") ∧
    ((sortedMembers (none : Option (String → Int)) (Entry.file "c.tif")).filter
        c4shp.inter = [] ∧
     filterEntry c4shp.inter (none : Option (String → Int)) (Entry.file "c.tif")
        = Entry.pynone) ∧
    (c4args.shapefile = some c4shp ∧ stackLocal1 c4args ≠ [] ∧
     (stack c4args c2env ⟨[], []⟩).result = .ok ()) :=
  ⟨⟨by decide, C4_extent_filter.2.2.1 c4shp.inter (none : Option (String → Int))
      (Entry.group ["a.tif", "b.tif"]) "b.tif" (by decide)⟩,
   ⟨by decide, C4_extent_filter.2.1 c4shp.inter (none : Option (String → Int))
      (Entry.file "c.tif") (by decide)⟩,
   ⟨rfl, by decide, C4_extent_filter.2.2.2.2.1 c4args c2env ⟨[], []⟩ "EPSG4326" [10, 10]
      c4shp rfl (by decide) (by decide) rfl (by decide) (by decide)⟩⟩

def c9shp : Shapefile := ⟨fun _ => true⟩

def c9args : StackArgs :=
  { srcfiles := [Entry.group ["b.tif", "a.tif"], Entry.file "c.tif"], dstfile := "out",
    resampling := "near", targetres := .list [10, 10], srcnodata := 0, dstnodata := 0,
    shapefile := some c9shp, layernames := none, sortfun := none, separate := true,
    overwrite := true, compress := true, cores := 4 }

/-- C9: counterexample.  With a shapefile that intersects everything the
call succeeds, the caller list is updated in place by the filtering loop
(the group is re-sorted), but line 476 rebinds the local name before the
VRT loop, so the caller list still holds exactly the original file names
and no temporary VRT path — refuting the claim that after any call every
entry has been overwritten with a VRT path and the original names are
gone. -/
theorem C9_counterexample :
    (stack c9args c2env ⟨[], []⟩).result = .ok () ∧
    (stack c9args c2env ⟨[], []⟩).caller =
      [Entry.group ["a.tif", "b.tif"], Entry.file "c.tif"] :=
  ⟨rfl, by decide⟩

theorem validate_targetres_list (a : StackArgs) (h : stackValidate a = none) :
    ∃ l, a.targetres = TargetRes.list l := by
  unfold stackValidate at h
  split at h
  · cases h
  · cases ht : a.targetres with
    | scalar v => rw [ht] at h; cases h
    | list l => exact ⟨l, rfl⟩

theorem stackSeparateBranch_caller (a : StackArgs) (fs1 : FS) (evs : List Event)
    (c : List Entry) : (stackSeparateBranch a fs1 evs c).caller = c := by
  unfold stackSeparateBranch
  dsimp only
  split
  · rfl
  · split <;> rfl

theorem vrtName_shape (t : String) (e : Entry) (v : String) (h : vrtName t e = .ok v) :
    ∃ nm, v = t ++ "/" ++ nm ++ ".vrt" := by
  match e, h with
  | Entry.file s, h => injection h with h2; exact ⟨_, h2.symm⟩
  | Entry.group (s :: g), h => injection h with h2; exact ⟨_, h2.symm⟩
  | Entry.group [], h => exact Except.noConfusion h
  | Entry.pynone, h => exact Except.noConfusion h

theorem vrtLoop_entries_shape (t : String) : ∀ (l : List Entry),
    (vrtLoop t l).err = none →
    ∀ ent ∈ (vrtLoop t l).entries, ∃ nm, ent = Entry.file (t ++ "/" ++ nm ++ ".vrt") := by
  intro l
  induction l with
  | nil =>
      intro _ ent he
      cases he
  | cons x xs ih =>
      intro herr ent he
      rw [vrtLoop] at herr he
      cases hv : vrtName t x <;> rw [hv] at herr he
      case error err => cases herr
      case ok v =>
          dsimp only at herr he
          rcases List.mem_cons.mp he with he | he
          · obtain ⟨nm, hnm⟩ := vrtName_shape t x v hv
            exact ⟨nm, by rw [he, hnm]⟩
          · exact ih herr ent he

theorem stackCubeBranch_caller (a : StackArgs) (fs1 : FS) (evs : List Event)
    (c : List Entry) : (stackCubeBranch a fs1 evs c).caller = c := rfl

/-- C9 (amended): how the caller-supplied srcfiles list is mutated.  With
a shapefile the filtering loop replaces each entry in place by the
filtered/flattened value (a sorted sub-group, a bare survivor, or None);
line 476 then rebinds the local name, so the VRT paths never reach the
caller.  Without a shapefile the caller list stays aliased through the
VRT loop, so on reaching it every entry is overwritten with the path of
a temporary .vrt file inside the tmp directory.  A call that fails
validation leaves the caller list untouched (and performs no event). -/
theorem C9_caller_mutation :
    (∀ (a : StackArgs) (env : RasterEnv) (fs : FS) (shp : Shapefile) (p : String),
        a.shapefile = some shp → stackValidate a = none → stackProjections env a = [p] →
        (stack a env fs).caller = a.srcfiles.map (filterEntry shp.inter a.sortfun)) ∧
    (∀ (a : StackArgs) (env : RasterEnv) (fs : FS) (p : String) (l : List Int),
        a.shapefile = none → stackValidate a = none → stackProjections env a = [p] →
        a.targetres = .list l → ¬ l.length < 2 →
        (stack a env fs).caller = (vrtLoop (stackTmpdir a) a.srcfiles).entries ∧
        ((vrtLoop (stackTmpdir a) a.srcfiles).err = none →
          ∀ ent ∈ (stack a env fs).caller, ∃ nm,
            ent = Entry.file (stackTmpdir a ++ "/" ++ nm ++ ".vrt"))) ∧
    (∀ (a : StackArgs) (env : RasterEnv) (fs : FS) (e : PyError),
        stackValidate a = some e →
        (stack a env fs).result = .error e ∧ (stack a env fs).caller = a.srcfiles ∧
        (stack a env fs).events = []) := by
  refine ⟨?_, ?_, ?_⟩
  · intro a env fs shp p hsh hval hproj
    obtain ⟨l, htr⟩ := validate_targetres_list a hval
    have hcaller1 : stackCaller1 a = a.srcfiles.map (filterEntry shp.inter a.sortfun) := by
      unfold stackCaller1
      rw [hsh]
    have hnone : a.shapefile.isNone = false := by rw [hsh]; rfl
    unfold stack
    rw [hval, hproj, htr]
    dsimp only
    have hif : (if a.shapefile.isNone = true
        then (vrtLoop (stackTmpdir a) (stackLocal1 a)).entries
        else stackCaller1 a) = stackCaller1 a := by
      rw [hnone]
      rfl
    rw [hif]
    by_cases hl2 : l.length < 2
    · rw [if_pos hl2]
      exact hcaller1
    · rw [if_neg hl2]
      cases herr2 : (vrtLoop (stackTmpdir a) (stackLocal1 a)).err
      · by_cases hsep2 : (a.separate || (stackLocal3 a).length == 1) = true
        · rw [if_pos hsep2, stackSeparateBranch_caller]
          exact hcaller1
        · rw [if_neg hsep2, stackCubeBranch_caller]
          exact hcaller1
      · exact hcaller1
  · intro a env fs p l hsh hval hproj htr hlen
    have hl1 : stackLocal1 a = a.srcfiles := by
      unfold stackLocal1
      rw [hsh]
    have hnone : a.shapefile.isNone = true := by rw [hsh]; rfl
    have hmain : (stack a env fs).caller = (vrtLoop (stackTmpdir a) a.srcfiles).entries := by
      unfold stack
      rw [hval, hproj, htr]
      dsimp only
      rw [if_neg hlen, hl1]
      have hif : (if a.shapefile.isNone = true
          then (vrtLoop (stackTmpdir a) a.srcfiles).entries
          else stackCaller1 a) = (vrtLoop (stackTmpdir a) a.srcfiles).entries := by
        rw [hnone]
        rfl
      rw [hif]
      cases herr2 : (vrtLoop (stackTmpdir a) a.srcfiles).err
      · by_cases hsep2 : (a.separate || (stackLocal3 a).length == 1) = true
        · rw [if_pos hsep2, stackSeparateBranch_caller]
        · rw [if_neg hsep2, stackCubeBranch_caller]
      · rfl
    refine ⟨hmain, ?_⟩
    intro herr ent hent
    rw [hmain] at hent
    exact vrtLoop_entries_shape (stackTmpdir a) a.srcfiles herr ent hent
  · intro a env fs e h
    unfold stack
    rw [h]
    exact ⟨rfl, rfl, rfl⟩

/-- C9 (witness): the no-shapefile case at a concrete request — after the
call the caller list holds exactly the temporary VRT paths. -/
theorem C9_caller_mutation_witness :
    c2args.shapefile = none ∧ stackValidate c2args = none ∧
    stackProjections c2env c2args = ["EPSG4326"] ∧
    (stack c2args c2env ⟨[], []⟩).caller =
      (vrtLoop (stackTmpdir c2args) c2args.srcfiles).entries ∧
    (stack c2args c2env ⟨[], []⟩).caller =
      [Entry.file "out__tmp/a.vrt", Entry.file "out__tmp/b.vrt"] :=
  ⟨rfl, by decide, by decide,
    (C9_caller_mutation.2.1 c2args c2env ⟨[], []⟩ "EPSG4326" [10, 10, 10] rfl (by decide)
      (by decide) rfl (by decide)).1,
    by decide⟩
